import Mathlib

/-!
Shallow embedding of the Transumate-API pipeline core (Translate.py).

External collaborators (Goose3 extraction, langdetect, the Marian translation
model, googletrans, BART summarization, KeyBERT) are modelled as oracle
functions; fallible stages return Except String so that a raised exception is
an explicit error value carrying the exception message.  The pure string
algorithms of the file (sentence splitting, keyword merging, cleaning, JSON
rendering) are translated directly from the source.
-/

/-- Sentence-terminal punctuation characters of the split pattern in
translate_text (Translate.py line 84). -/
def isTerm (c : Char) : Bool := c == '.' || c == '!' || c == '?'

/-- True when a character list starts with an ASCII space. -/
def headIsSpace (l : List Char) : Bool :=
  match l with
  | d :: _ => d == ' '
  | [] => false

/-- Splitter core for the regular expression (?<=[.!?]) + of Translate.py
line 84: a boundary is a terminal punctuation character immediately followed
by one or more space characters; the punctuation stays with the left unit and
the space run is consumed.  The flag is true while consuming the space run
that follows a match; acc holds the current unit reversed. -/
def splitGo : Bool → List Char → List Char → List (List Char)
  | _, [], acc => [acc.reverse]
  | skipping, c :: rest, acc =>
    if skipping && c == ' ' then splitGo true rest acc
    else if isTerm c && headIsSpace rest then
      (acc.reverse ++ [c]) :: splitGo true rest []
    else splitGo false rest (c :: acc)

/-- Sentence partition of a string, as re.split(r'(?<=[.!?]) +', text) in
translate_text produces it. -/
def splitSentences (s : String) : List String :=
  (splitGo false s.data []).map fun u => String.mk u

/-- Translation of a text, one sentence unit at a time (Translate.py lines
83-90), with the per-unit model translation abstracted as tr; the per-unit
outputs are joined with single spaces in input order. -/
def translate_text (tr : String → String) (text : String) : String :=
  String.intercalate " " ((splitSentences text).map tr)

/-- Fallible variant of translate_text for use inside the pipeline: the
per-sentence model call may raise, and the first raise aborts the loop, as in
the Python for-loop. -/
def translate_textE (tr : String → Except String String) (text : String) :
    Except String String := do
  let chunks ← (splitSentences text).mapM tr
  pure (String.intercalate " " chunks)

/-- Splitter following the words of the specification (section 4.2): the
boundary is sentence-terminal punctuation followed by whitespace (any
whitespace character), the whitespace run being consumed.  This definition is
written from the spec, for comparison with splitGo which is written from the
source. -/
def splitGoSpecW : Bool → List Char → List Char → List (List Char)
  | _, [], acc => [acc.reverse]
  | skipping, c :: rest, acc =>
    if skipping && c.isWhitespace then splitGoSpecW true rest acc
    else if isTerm c && (match rest with
        | d :: _ => d.isWhitespace
        | [] => false) then
      (acc.reverse ++ [c]) :: splitGoSpecW true rest []
    else splitGoSpecW false rest (c :: acc)

/-- Sentence partition according to the specification's description
(punctuation followed by whitespace), written from the spec for comparison
with splitSentences. -/
def splitSentencesSpec (s : String) : List String :=
  (splitGoSpecW false s.data []).map fun u => String.mk u

/-- Boolean check that a character list contains no occurrence of a
sentence-terminal punctuation character immediately followed by a space:
a unit of the source splitter never spans such a boundary. -/
def noTermSpace : List Char → Bool
  | a :: b :: rest => !(isTerm a && b == ' ') && noTermSpace (b :: rest)
  | _ => true

/-- Merge of extractor hint keywords with the keyword model's candidates
(Translate.py lines 110-114): list(set(goose_keywords + keywords))[:5].
CPython set iteration order is unspecified; List.dedup fixes one concrete
enumeration (first occurrences of the concatenation).  Every property proved
of this merge below is independent of the enumeration order. -/
def extract_keywords (goose_keywords candidates : List String) : List String :=
  ((goose_keywords ++ candidates).dedup).take 5

/-- Rendering of the final keyword list as the keyword_i mapping of the ok
record (Translate.py line 147), keys 1-based in insertion order. -/
def keyword_map (kws : List String) : List (String × String) :=
  kws.enum.map fun p => ("keyword_" ++ toString (p.1 + 1), p.2)

/-- Apostrophe character (code point 39). -/
def apos : Char := Char.ofNat 39

/-- Removal of every non-overlapping left-to-right occurrence of the adjacent
pair a b from a character list, as Python str.replace with a two-character
pattern and empty replacement does. -/
def replacePair (a b : Char) : List Char → List Char
  | [] => []
  | [x] => [x]
  | x :: y :: rest =>
    if x == a && y == b then replacePair a b rest
    else x :: replacePair a b (y :: rest)

/-- Whitespace set of Python str.strip for ASCII text: space, tab, newline,
carriage return, vertical tab, form feed. -/
def isSpaceCh (c : Char) : Bool :=
  c == ' ' || c == '\t' || c == '\n' || c == '\r' || c == '\x0b' || c == '\x0c'

/-- Trim of leading and trailing whitespace, as str.strip(). -/
def pyTrim (l : List Char) : List Char :=
  (((l.dropWhile isSpaceCh).reverse).dropWhile isSpaceCh).reverse

/-- Text normalizer (Translate.py lines 117-118): remove backslash-quote and
backslash-apostrophe pairs, then every quote and apostrophe character, then
strip surrounding whitespace. -/
def clean_text (s : String) : String :=
  String.mk (pyTrim
    ((((replacePair '\\' apos (replacePair '\\' '"' s.data)).filter
        fun c => c != '"').filter fun c => c != apos)))

/-- Article fields returned by the Goose3 extraction (Translate.py lines
71-80), after the or-defaulting to the not_found sentinel and the empty
keyword list. -/
structure Article where
  title : String
  author : String
  date : String
  content : String
  goose_keywords : List String
deriving DecidableEq

/-- Result value of process_url (Translate.py lines 141-151): exactly the ok
shape with its six data fields, or the error shape with its message.  The
keywords field carries the keyword_i mapping in insertion order. -/
inductive ResultRecord where
  | ok (title translated_title author date : String)
      (keywords : List (String × String)) (text : String)
  | error (msg : String)
deriving DecidableEq

/-- Oracles for the external collaborators of one process_url invocation.
extract is the outcome of extract_with_goose on the request URL; detect is
langdetect on a text; ttitle is translate_title (total: it catches its own
exceptions and returns its input on failure, Translate.py lines 93-99); tsent
is the per-sentence Marian model call; summarize is the BART call; keybert
returns the top-5 candidate keywords from a text.  An Except.error value is a
raised exception carrying its message. -/
structure Oracles where
  extract : Except String Article
  detect : String → Except String String
  ttitle : String → String → String
  tsent : String → Except String String
  summarize : String → Except String String
  keybert : String → Except String (List String)

/-- Body of the try block of process_url (Translate.py lines 122-149): each
stage in order, a raised exception propagating as Except.error, the
not-found sentinel short-circuiting with the error record. -/
def process_url_try (o : Oracles) : Except String ResultRecord :=
  match o.extract with
  | .error e => .error e
  | .ok art =>
    if art.content == "not_found" then
      .ok (ResultRecord.error "Main content not found.")
    else
      match o.detect art.content with
      | .error e => .error e
      | .ok lang =>
        if lang != "en" then
          let t0 := o.ttitle art.title lang
          match translate_textE o.tsent art.content with
          | .error e => .error e
          | .ok content =>
            let tt := if t0 == "" || t0 == art.title then
                "Translation not available." else t0
            match o.summarize content with
            | .error e => .error e
            | .ok s =>
              match o.keybert content with
              | .error e => .error e
              | .ok cands =>
                .ok (ResultRecord.ok art.title tt art.author art.date
                  (keyword_map (extract_keywords art.goose_keywords cands))
                  (clean_text s))
        else
          match o.summarize art.content with
          | .error e => .error e
          | .ok s =>
            match o.keybert art.content with
            | .error e => .error e
            | .ok cands =>
              .ok (ResultRecord.ok art.title art.title art.author art.date
                (keyword_map (extract_keywords art.goose_keywords cands))
                (clean_text s))

/-- Orchestrator process_url (Translate.py lines 121-151): the try body with
the top-level except converting any raised exception into the error record
carrying the exception message. -/
def process_url (o : Oracles) : ResultRecord :=
  match process_url_try o with
  | .ok r => r
  | .error e => ResultRecord.error e

/-- Lowercase hexadecimal digit. -/
def hexDigit (n : Nat) : Char :=
  if n < 10 then Char.ofNat (48 + n) else Char.ofNat (87 + n)

/-- Four-digit lowercase hexadecimal rendering of a code unit, as in a JSON
backslash-u escape. -/
def hex4 (n : Nat) : String :=
  String.mk [hexDigit (n / 4096 % 16), hexDigit (n / 256 % 16),
    hexDigit (n / 16 % 16), hexDigit (n % 16)]

/-- Escape of one character inside a JSON string literal, following the json
module: quote, backslash and the short control escapes, backslash-u for other
control characters, and, when ensure_ascii is set, backslash-u (with
surrogate pairs beyond the basic plane) for every character outside the
printable ASCII range. -/
def escapeChar (ensureAscii : Bool) (c : Char) : String :=
  if c == '"' then "\\\""
  else if c == '\\' then "\\\\"
  else if c == '\n' then "\\n"
  else if c == '\t' then "\\t"
  else if c == '\r' then "\\r"
  else if c == '\x08' then "\\b"
  else if c == '\x0c' then "\\f"
  else if c.toNat < 32 then "\\u" ++ hex4 c.toNat
  else if ensureAscii && 126 < c.toNat then
    if c.toNat < 65536 then "\\u" ++ hex4 c.toNat
    else "\\u" ++ hex4 (55296 + (c.toNat - 65536) / 1024) ++
         "\\u" ++ hex4 (56320 + (c.toNat - 65536) % 1024)
  else String.singleton c

/-- JSON string literal for a value, per the json module's escaping. -/
def jsonString (ensureAscii : Bool) (s : String) : String :=
  "\"" ++ String.join (s.data.map (escapeChar ensureAscii)) ++ "\""

/-- Indentation padding of a given width. -/
def pad (n : Nat) : String := String.mk (List.replicate n ' ')

/-- Rendering of a flat string-to-string JSON object, compact (the json
module's default separators) or with the given indent width at the given
nesting level. -/
def dumpsStrObj (ensureAscii : Bool) (indent : Option Nat) (lvl : Nat)
    (fs : List (String × String)) : String :=
  match indent with
  | none => "\x7b" ++ String.intercalate ", " (fs.map fun kv =>
      jsonString ensureAscii kv.1 ++ ": " ++ jsonString ensureAscii kv.2) ++ "\x7d"
  | some n =>
    if fs.isEmpty then "\x7b\x7d"
    else "\x7b\n" ++ String.intercalate ",\n" (fs.map fun kv =>
        pad ((lvl + 1) * n) ++ jsonString ensureAscii kv.1 ++ ": " ++
        jsonString ensureAscii kv.2) ++ "\n" ++ pad (lvl * n) ++ "\x7d"

/-- JSON value of depth at most one: a string, or a flat string object (the
keywords mapping of the ok record). -/
inductive JVal where
  | s (v : String)
  | o (fields : List (String × String))

/-- Rendering of one JSON value appearing as a field of the top-level
object. -/
def dumpsVal (ensureAscii : Bool) (indent : Option Nat) : JVal → String
  | .s v => jsonString ensureAscii v
  | .o fs => dumpsStrObj ensureAscii indent 1 fs

/-- Rendering of the top-level JSON object, compact or indented, following
json.dumps on a dict whose values are strings or one nested string dict. -/
def dumpsTop (ensureAscii : Bool) (indent : Option Nat)
    (fs : List (String × JVal)) : String :=
  match indent with
  | none => "\x7b" ++ String.intercalate ", " (fs.map fun kv =>
      jsonString ensureAscii kv.1 ++ ": " ++ dumpsVal ensureAscii none kv.2) ++ "\x7d"
  | some n =>
    if fs.isEmpty then "\x7b\x7d"
    else "\x7b\n" ++ String.intercalate ",\n" (fs.map fun kv =>
        pad n ++ jsonString ensureAscii kv.1 ++ ": " ++
        dumpsVal ensureAscii (some n) kv.2) ++ "\n\x7d"

/-- Field list of a result record as the JSON object printed by main
(Translate.py lines 141-151). -/
def resultFields : ResultRecord → List (String × JVal)
  | .error e => [("status", .s "error"), ("error", .s e)]
  | .ok t tt a d k x =>
    [("status", .s "ok"), ("title", .s t), ("translated_title", .s tt),
     ("author", .s a), ("date", .s d), ("keywords", .o k), ("text", .s x)]

/-- Usage-error object printed by main when the argument count is wrong
(Translate.py line 170). -/
def usageFields : List (String × JVal) :=
  [("status", .s "error"), ("error", .s "Usage: python extract_v5.py <URL>")]

/-- Standard-output line of main (Translate.py lines 168-178) as a function
of the argument vector (program name included) and the pipeline oracles:
with anything other than exactly one URL argument, the usage object printed
with json.dumps defaults (compact, ASCII-escaped) and no URL processed;
otherwise the result record printed with indent 4 and ensure_ascii False. -/
def main_run (argv : List String) (o : Oracles) : String :=
  if argv.length != 2 then dumpsTop true none usageFields
  else dumpsTop false (some 4) (resultFields (process_url o))

/-- Target of a process output stream: an ordinary stream handle, or a
discard sink (an open handle on the null device). -/
inductive StreamTarget where
  | handle (id : Nat)
  | devnull (id : Nat)
deriving DecidableEq

/-- The pair of ambient process streams sys.stdout and sys.stderr. -/
structure SysStreams where
  stdout : StreamTarget
  stderr : StreamTarget
deriving DecidableEq

/-- Saved stream targets held by a SuppressOutput instance (Translate.py
lines 154-159). -/
structure SuppressCtx where
  saved_stdout : StreamTarget
  saved_stderr : StreamTarget
deriving DecidableEq

/-- Entry of the SuppressOutput context manager (lines 155-159): save both
current targets, then point both streams at freshly opened null-device
handles (fresh and fresh + 1 are the two open calls). -/
def SuppressOutput_enter (s : SysStreams) (fresh : Nat) :
    SuppressCtx × SysStreams :=
  (⟨s.stdout, s.stderr⟩, ⟨StreamTarget.devnull fresh, StreamTarget.devnull (fresh + 1)⟩)

/-- Exiting the SuppressOutput context manager (lines 161-165): close the
null-device handles and restore both saved targets; the exception argument
(none on normal exit, the message on a raise) is ignored, as the Python
method ignores its exc arguments. -/
def SuppressOutput_exit (ctx : SuppressCtx) (_exc : Option String)
    (_cur : SysStreams) : SysStreams :=
  ⟨ctx.saved_stdout, ctx.saved_stderr⟩

/-- Semantics of the with SuppressOutput() block: enter, run the body on the
redirected streams, and call exit on every outcome, with the exception
message when the body raised. -/
def with_suppress {α : Type} (s : SysStreams) (fresh : Nat)
    (body : SysStreams → Except String α) : Except String α × SysStreams :=
  let p := SuppressOutput_enter s fresh
  match body p.2 with
  | .ok a => (.ok a, SuppressOutput_exit p.1 none p.2)
  | .error e => (.error e, SuppressOutput_exit p.1 (some e) p.2)

/-- Concrete oracle whose extraction raises, for exercising the top-level
exception conversion. -/
def c1O : Oracles :=
  ⟨Except.error "goose crash", fun _ => Except.ok "en", fun t _ => t,
   fun s => Except.ok s, fun s => Except.ok s, fun _ => Except.ok []⟩

/-- Concrete article whose body is the not-found sentinel. -/
def c2Art : Article := ⟨"T", "A", "D", "not_found", ["k"]⟩

/-- Concrete oracle around c2Art whose every later stage raises, showing the
short circuit reaches none of them. -/
def c2O : Oracles :=
  ⟨Except.ok c2Art, fun _ => Except.error "detect crash", fun t _ => t,
   fun _ => Except.error "marian crash", fun _ => Except.error "bart crash",
   fun _ => Except.error "keybert crash"⟩

/-- Concrete English-language article (the spec's end-to-end scenario 2
title). -/
def c3Art : Article := ⟨"Cats Explained", "A", "D", "Cats are great. Fin.", []⟩

/-- Concrete oracle around c3Art with English detection. -/
def c3O : Oracles :=
  ⟨Except.ok c3Art, fun _ => Except.ok "en", fun t _ => t,
   fun s => Except.ok s, fun s => Except.ok s, fun _ => Except.ok ["cats"]⟩

/-- Concrete non-English article whose title is itself the literal
"Translation not available." sentinel. -/
def c4Art : Article := ⟨"Translation not available.", "A", "D", "Texte.", []⟩

/-- Concrete oracle around c4Art: detection yields fr and the title fallback
returns its input unchanged. -/
def c4O : Oracles :=
  ⟨Except.ok c4Art, fun _ => Except.ok "fr", fun t _ => t,
   fun _ => Except.ok "Text.", fun s => Except.ok s, fun _ => Except.ok []⟩

/-- Concrete non-English article with an ordinary title. -/
def c4bArt : Article := ⟨"Titre", "A", "D", "Texte.", []⟩

/-- Concrete oracle around c4bArt: detection yields fr and the title fallback
returns its input unchanged. -/
def c4bO : Oracles :=
  ⟨Except.ok c4bArt, fun _ => Except.ok "fr", fun t _ => t,
   fun _ => Except.ok "Text.", fun s => Except.ok s, fun _ => Except.ok []⟩

theorem replacePair_of_not_mem (a b : Char) :
    ∀ l : List Char, b ∉ l → replacePair a b l = l
  | [], _ => rfl
  | [_], _ => rfl
  | x :: y :: rest, h => by
    have hy : (y == b) = false := by
      have hne : y ≠ b := fun e => h (by simp [e])
      simp [hne]
    have hrec := replacePair_of_not_mem a b (y :: rest)
      (fun m => h (List.mem_cons_of_mem x m))
    simp [replacePair, hy, hrec]

theorem dropWhile_head?_false {α : Type} (p : α → Bool) :
    ∀ l : List α, ∀ c, (List.dropWhile p l).head? = some c → p c = false
  | [], c => by simp
  | x :: t, c => by
    by_cases hx : p x = true
    · simpa [List.dropWhile_cons, hx] using dropWhile_head?_false p t c
    · simp only [Bool.not_eq_true] at hx
      simp [List.dropWhile_cons, hx]
      intro e
      exact e ▸ hx

theorem dropWhile_idem {α : Type} (p : α → Bool) :
    ∀ l : List α, List.dropWhile p (List.dropWhile p l) = List.dropWhile p l
  | [] => rfl
  | x :: t => by
    by_cases hx : p x = true
    · simp [List.dropWhile_cons, hx, dropWhile_idem p t]
    · simp only [Bool.not_eq_true] at hx
      simp [List.dropWhile_cons, hx]

theorem dropWhile_eq_self_of_head {α : Type} (p : α → Bool) (l : List α)
    (h : ∀ c, l.head? = some c → p c = false) : List.dropWhile p l = l := by
  cases l with
  | nil => rfl
  | cons x t => simp [List.dropWhile_cons, h x rfl]

theorem pyTrim_idem (l : List Char) : pyTrim (pyTrim l) = pyTrim l := by
  unfold pyTrim
  set p := isSpaceCh with hp
  set A := List.dropWhile p l with hA
  set B := List.dropWhile p A.reverse with hB
  have step1 : List.dropWhile p B.reverse = B.reverse := by
    cases hBc : B with
    | nil => simp
    | cons b bt =>
      apply dropWhile_eq_self_of_head
      intro c hc
      rw [List.head?_reverse] at hc
      have hBne : B ≠ [] := by rw [hBc]; simp
      have hsuf : B <:+ A.reverse := by rw [hB]; exact List.dropWhile_suffix p
      obtain ⟨t, ht⟩ := hsuf
      have hlast : A.reverse.getLast? = B.getLast? := by
        rw [← ht]; exact List.getLast?_append_of_ne_nil t hBne
      rw [← hBc, ← hlast, List.getLast?_reverse] at hc
      exact dropWhile_head?_false p l c (hA ▸ hc)
  rw [step1, List.reverse_reverse]
  have step2 : List.dropWhile p B = B := by
    rw [hB]; exact dropWhile_idem p A.reverse
  rw [step2]

theorem pyTrim_subset (l : List Char) : pyTrim l ⊆ l := by
  intro c hc
  unfold pyTrim at hc
  rw [List.mem_reverse] at hc
  have h1 : c ∈ (List.dropWhile isSpaceCh l).reverse :=
    ((List.dropWhile_suffix isSpaceCh).sublist).subset hc
  rw [List.mem_reverse] at h1
  exact ((List.dropWhile_suffix isSpaceCh).sublist).subset h1

/-- C7.  The Text Normalizer is idempotent: cleaning an already cleaned
string changes nothing.  The first pass removes every quote and apostrophe
character and trims surrounding whitespace, so on the second pass the two
pair-removals and the two filters find nothing to remove and the trim of a
trimmed list is itself. -/
theorem clean_text_idempotent (x : String) :
    clean_text (clean_text x) = clean_text x := by
  unfold clean_text
  set l2 := replacePair '\\' apos (replacePair '\\' '"' x.data) with hl2
  set l3 := l2.filter (fun c => c != '"') with hl3
  set l4 := l3.filter (fun c => c != apos) with hl4
  have hdata : (String.mk (pyTrim l4)).data = pyTrim l4 := rfl
  rw [hdata]
  have hq : '"' ∉ pyTrim l4 := by
    intro hmem
    have h3 : '"' ∈ l3 := (List.mem_filter.mp (pyTrim_subset l4 hmem)).1
    have := (List.mem_filter.mp h3).2
    simp at this
  have ha : apos ∉ pyTrim l4 := by
    intro hmem
    have := (List.mem_filter.mp (pyTrim_subset l4 hmem)).2
    simp at this
  rw [replacePair_of_not_mem '\\' '"' (pyTrim l4) hq]
  rw [replacePair_of_not_mem '\\' apos (pyTrim l4) ha]
  rw [List.filter_eq_self.mpr (fun a hmem => by
    have ha2 : a ≠ apos := fun e => ha (e ▸ (List.mem_filter.mp hmem).1)
    simp [ha2])]
  rw [List.filter_eq_self.mpr (fun a hmem => by
    have hq2 : a ≠ '"' := fun e => hq (e ▸ hmem)
    simp [hq2])]
  rw [pyTrim_idem]

/-- C5.  The keyword merge returns a subset of the union of the hint
keywords and the engine candidates, without duplicates, of length at most
five. -/
theorem extract_keywords_merge (hints candidates : List String) :
    (∀ k ∈ extract_keywords hints candidates, k ∈ hints ∨ k ∈ candidates) ∧
    (extract_keywords hints candidates).Nodup ∧
    (extract_keywords hints candidates).length ≤ 5 := by
  refine ⟨?_, ?_, ?_⟩
  · intro k hk
    have h1 : k ∈ (hints ++ candidates).dedup :=
      (List.take_sublist 5 _).subset hk
    exact List.mem_append.mp (List.dedup_subset _ h1)
  · exact (List.nodup_dedup _).sublist (List.take_sublist 5 _)
  · exact List.length_take_le 5 _

/-- Witness for C5 at the spec's end-to-end scenario 4: hints ai, ml and
candidates ml, future. -/
theorem extract_keywords_merge_witness :
    ("ai" ∈ (["ai", "ml"] : List String) ∨ "ai" ∈ (["ml", "future"] : List String)) ∧
    (extract_keywords ["ai", "ml"] ["ml", "future"]).Nodup ∧
    (extract_keywords ["ai", "ml"] ["ml", "future"]).length ≤ 5 :=
  ⟨(extract_keywords_merge ["ai", "ml"] ["ml", "future"]).1 "ai" (by decide),
   (extract_keywords_merge ["ai", "ml"] ["ml", "future"]).2.1,
   (extract_keywords_merge ["ai", "ml"] ["ml", "future"]).2.2⟩

/-- Unwrapping of the string constructor. -/
theorem data_mk (l : List Char) : (String.mk l).data = l := rfl

/-- A pair of adjacent characters that is not a split boundary of the source
pattern: not a sentence terminator followed by a space. -/
def goodPair (a b : Char) : Prop := ¬(isTerm a = true ∧ b = ' ')

theorem noTermSpace_iff_chain :
    ∀ l : List Char, noTermSpace l = true ↔ List.Chain' goodPair l
  | [] => by simp [noTermSpace]
  | [a] => by simp [noTermSpace]
  | a :: b :: rest => by
    rw [List.chain'_cons, ← noTermSpace_iff_chain (b :: rest)]
    show (!(isTerm a && b == ' ') && noTermSpace (b :: rest)) = true ↔ _
    simp only [Bool.and_eq_true, Bool.not_eq_true', Bool.and_eq_false_iff,
      goodPair, not_and, beq_iff_eq]
    constructor
    · rintro ⟨h1, h2⟩
      refine ⟨?_, h2⟩
      rcases h1 with h | h
      · intro ht; rw [ht] at h; cases h
      · intro _; simpa using h
    · rintro ⟨h1, h2⟩
      refine ⟨?_, h2⟩
      by_cases ht : isTerm a = true
      · exact Or.inr (by simpa using h1 ht)
      · exact Or.inl (by simpa using ht)

theorem splitGo_units_good :
    ∀ (l : List Char) (sk : Bool) (acc : List Char),
      List.Chain' (flip goodPair) acc →
      (∀ a c, acc.head? = some a → l.head? = some c → goodPair a c) →
      (sk = true → acc = []) →
      ∀ u ∈ splitGo sk l acc, List.Chain' goodPair u
  | [], _, acc, hchain, _, _ => by
    intro u hu
    simp only [splitGo, List.mem_singleton] at hu
    subst hu
    exact List.chain'_reverse.mpr hchain
  | c :: rest, sk, acc, hchain, hcouple, hsk => by
    intro u hu
    simp only [splitGo] at hu
    by_cases h1 : (sk && c == ' ') = true
    · rw [if_pos h1] at hu
      have hskt : sk = true := (Bool.and_eq_true _ _).mp h1 |>.1
      have hacc : acc = [] := hsk hskt
      subst hacc
      exact splitGo_units_good rest true [] (by simp)
        (fun a c h _ => by cases h) (fun _ => rfl) u hu
    · rw [if_neg h1] at hu
      by_cases h2 : (isTerm c && headIsSpace rest) = true
      · rw [if_pos h2] at hu
        rcases List.mem_cons.mp hu with hhd | htl
        · subst hhd
          refine List.chain'_append.mpr ⟨List.chain'_reverse.mpr hchain, ?_, ?_⟩
          · simp
          · intro x hx y hy
            rw [List.getLast?_reverse] at hx
            simp only [List.head?_cons, Option.mem_def, Option.some.injEq] at hy
            exact hy ▸ hcouple x c hx rfl
        · exact splitGo_units_good rest true [] (by simp)
            (fun a c h _ => by cases h) (fun _ => rfl) u htl
      · rw [if_neg h2] at hu
        refine splitGo_units_good rest false (c :: acc) ?_ ?_ (by simp) u hu
        · refine List.chain'_cons'.mpr ⟨?_, hchain⟩
          intro y hy
          exact hcouple y c hy rfl
        · intro a d ha hd
          simp only [List.head?_cons, Option.some.injEq] at ha
          subst ha
          intro ⟨hterm, hsp⟩
          apply h2
      
          have : headIsSpace rest = true := by
            cases rest with
            | nil => cases hd
            | cons r rt =>
              simp only [List.head?_cons, Option.some.injEq] at hd
              subst hd
              simp [headIsSpace, hsp]
          simp [hterm, this]

theorem splitGo_flatten_sublist :
    ∀ (l : List Char) (sk : Bool) (acc : List Char),
      List.Sublist ((splitGo sk l acc).flatten) (acc.reverse ++ l)
  | [], _, acc => by simp [splitGo]
  | c :: rest, sk, acc => by
    by_cases h1 : (sk && c == ' ') = true
    · have ih := splitGo_flatten_sublist rest true acc
      simp only [splitGo, if_pos h1]
      exact ih.trans ((List.sublist_cons_self c rest).append_left acc.reverse)
    · by_cases h2 : (isTerm c && headIsSpace rest) = true
      · have ih := splitGo_flatten_sublist rest true []
        simp only [splitGo, if_neg h1, if_pos h2, List.flatten_cons]
        have h3 : List.Sublist ((splitGo true rest []).flatten) rest := by
          simpa using ih
        have h4 := h3.append_left (acc.reverse ++ [c])
        simpa [List.append_assoc] using h4
      · have ih := splitGo_flatten_sublist rest false (c :: acc)
        simp only [splitGo, if_neg h1, if_neg h2]
        simpa [List.append_assoc] using ih

/-- C6 (amended).  The translation routine maps the per-unit translator over
the partition produced by the source split pattern (terminal punctuation
followed by one or more space characters, the space run being consumed) and
joins the per-unit outputs with single spaces in input order; no unit of that
partition contains a terminal punctuation character immediately followed by a
space; and the concatenation of the units is an order-preserving sublist of
the input text's characters. -/
theorem translate_text_chunking (tr : String → String) (text : String) :
    translate_text tr text =
      String.intercalate " " ((splitSentences text).map tr) ∧
    (∀ u ∈ splitSentences text, noTermSpace u.data = true) ∧
    List.Sublist ((splitSentences text).map String.data).flatten text.data := by
  refine ⟨rfl, ?_, ?_⟩
  · intro u hu
    rcases List.mem_map.mp hu with ⟨ul, hul, hmk⟩
    have hgood := splitGo_units_good text.data false [] (by simp)
      (fun a c h _ => by cases h) (by simp) ul hul
    rw [noTermSpace_iff_chain, ← hmk, data_mk]
    exact hgood
  · have h := splitGo_flatten_sublist text.data false []
    have hmap : (splitSentences text).map String.data =
        splitGo false text.data [] := by
      unfold splitSentences
      rw [List.map_map]
      exact List.map_id' _
    rw [hmap]
    simpa using h

/-- Witness for C6: on the text consisting of two sentences separated by a
period and a space, the first emitted unit contains no internal boundary. -/
theorem translate_text_chunking_witness :
    noTermSpace ("Hi there." : String).data = true :=
  (translate_text_chunking (fun s => s) "Hi there. Bye! Ok").2.1
    "Hi there." (by decide)

/-- Counterexample to C6 as stated: the source splits only at punctuation
followed by space characters, not by arbitrary whitespace.  On the input with
a period followed by a tab, the code keeps one unit spanning the terminator,
while the specification's whitespace rule would split there, so the output of
the code differs from the output the claim describes. -/
theorem translate_text_whitespace_cex :
    translate_text (fun s => s) "a.\tb" = "a.\tb" ∧
    String.intercalate " " ((splitSentencesSpec "a.\tb").map (fun s => s)) =
      "a. b" ∧
    translate_text (fun s => s) "a.\tb" ≠
      String.intercalate " " ((splitSentencesSpec "a.\tb").map (fun s => s)) := by
  refine ⟨by decide, by decide, by decide⟩

theorem process_notfound_aux (o : Oracles) (art : Article)
    (hx : o.extract = Except.ok art) (hc : art.content = "not_found") :
    process_url o = ResultRecord.error "Main content not found." := by
  simp [process_url, process_url_try, hx, hc]

theorem process_en_form (o : Oracles) (art : Article)
    (hx : o.extract = Except.ok art) (hc : art.content ≠ "not_found")
    (hd : o.detect art.content = Except.ok "en") :
    process_url o =
      match o.summarize art.content with
      | .error e => ResultRecord.error e
      | .ok s =>
        match o.keybert art.content with
        | .error e => ResultRecord.error e
        | .ok cands => ResultRecord.ok art.title art.title art.author art.date
            (keyword_map (extract_keywords art.goose_keywords cands))
            (clean_text s) := by
  have hc2 : (art.content == "not_found") = false := beq_eq_false_iff_ne.mpr hc
  cases hs : o.summarize art.content <;> cases hk : o.keybert art.content <;>
    simp [process_url, process_url_try, hx, hc2, hd, hs, hk]

theorem process_nonen_form (o : Oracles) (art : Article) (lang : String)
    (hx : o.extract = Except.ok art) (hc : art.content ≠ "not_found")
    (hd : o.detect art.content = Except.ok lang) (hl : lang ≠ "en") :
    process_url o =
      match translate_textE o.tsent art.content with
      | .error e => ResultRecord.error e
      | .ok content =>
        match o.summarize content with
        | .error e => ResultRecord.error e
        | .ok s =>
          match o.keybert content with
          | .error e => ResultRecord.error e
          | .ok cands => ResultRecord.ok art.title
              (if o.ttitle art.title lang == "" ||
                  o.ttitle art.title lang == art.title
               then "Translation not available."
               else o.ttitle art.title lang)
              art.author art.date
              (keyword_map (extract_keywords art.goose_keywords cands))
              (clean_text s) := by
  have hc2 : (art.content == "not_found") = false := beq_eq_false_iff_ne.mpr hc
  have hl2 : (lang != "en") = true := by simp [bne_iff_ne, hl]
  cases htr : translate_textE o.tsent art.content with
  | error e => simp [process_url, process_url_try, hx, hc2, hd, hl2, htr]
  | ok content =>
    cases hs : o.summarize content <;> cases hk : o.keybert content <;>
      simp [process_url, process_url_try, hx, hc2, hd, hl2, htr, hs, hk]

theorem process_ok_inv (o : Oracles) (art : Article)
    (hx : o.extract = Except.ok art)
    (t tt a d : String) (k : List (String × String)) (x : String)
    (hr : process_url o = ResultRecord.ok t tt a d k x) :
    t = art.title ∧ a = art.author ∧ d = art.date ∧
    ((o.detect art.content = Except.ok "en" ∧ tt = art.title) ∨
     (∃ lang, o.detect art.content = Except.ok lang ∧ lang ≠ "en" ∧
       tt = if o.ttitle art.title lang == "" ||
               o.ttitle art.title lang == art.title
            then "Translation not available."
            else o.ttitle art.title lang)) := by
  by_cases hc : art.content = "not_found"
  · rw [process_notfound_aux o art hx hc] at hr
    exact absurd hr (by simp)
  · have hc2 : (art.content == "not_found") = false := beq_eq_false_iff_ne.mpr hc
    cases hd : o.detect art.content with
    | error e =>
      have h : process_url o = ResultRecord.error e := by
        simp [process_url, process_url_try, hx, hc2, hd]
      rw [h] at hr
      exact absurd hr (by simp)
    | ok lang =>
      by_cases hl : lang = "en"
      · subst hl
        rw [process_en_form o art hx hc hd] at hr
        cases hs : o.summarize art.content with
        | error e => rw [hs] at hr; exact absurd hr (by simp)
        | ok s =>
          rw [hs] at hr
          cases hk : o.keybert art.content with
          | error e => rw [hk] at hr; exact absurd hr (by simp)
          | ok cands =>
            rw [hk] at hr
            injection hr with h1 h2 h3 h4 h5 h6
            exact ⟨h1.symm, h3.symm, h4.symm, Or.inl ⟨rfl, h2.symm⟩⟩
      · cases htr : translate_textE o.tsent art.content with
        | error e =>
          have h : process_url o = ResultRecord.error e := by
            rw [process_nonen_form o art lang hx hc hd hl]
            simp only [htr]
          rw [h] at hr
          exact absurd hr (by simp)
        | ok content =>
          cases hs : o.summarize content with
          | error e =>
            have h : process_url o = ResultRecord.error e := by
              rw [process_nonen_form o art lang hx hc hd hl]
              simp only [htr, hs]
            rw [h] at hr
            exact absurd hr (by simp)
          | ok s =>
            cases hk : o.keybert content with
            | error e =>
              have h : process_url o = ResultRecord.error e := by
                rw [process_nonen_form o art lang hx hc hd hl]
                simp only [htr, hs, hk]
              rw [h] at hr
              exact absurd hr (by simp)
            | ok cands =>
              have h : process_url o = ResultRecord.ok art.title
                  (if o.ttitle art.title lang == "" ||
                      o.ttitle art.title lang == art.title
                   then "Translation not available."
                   else o.ttitle art.title lang)
                  art.author art.date
                  (keyword_map (extract_keywords art.goose_keywords cands))
                  (clean_text s) := by
                rw [process_nonen_form o art lang hx hc hd hl]
                simp only [htr, hs, hk]
              rw [h] at hr
              injection hr with h1 h2 h3 h4 h5 h6
              exact ⟨h1.symm, h3.symm, h4.symm, Or.inr ⟨lang, rfl, hl, h2.symm⟩⟩

/-- C1.  Every invocation of the orchestrator yields exactly one of the two
record shapes (the ok shape with its six data fields or the error shape with
its message, the constructors of ResultRecord being mutually exclusive and
carrying no field of the other shape), and whenever the try body raises at
any stage, the caller receives the error record carrying exactly the raised
exception's message; process_url itself is a total function and never
raises. -/
theorem process_url_total_shape (o : Oracles) :
    ((∃ e, process_url o = ResultRecord.error e) ∨
     (∃ t tt a d k x, process_url o = ResultRecord.ok t tt a d k x)) ∧
    (∀ e, process_url_try o = Except.error e →
      process_url o = ResultRecord.error e) := by
  constructor
  · cases hr : process_url o with
    | ok t tt a d k x => exact Or.inr ⟨t, tt, a, d, k, x, rfl⟩
    | error e => exact Or.inl ⟨e, rfl⟩
  · intro e he
    simp [process_url, he]

/-- Witness for C1: the oracle whose extraction raises with message goose
crash produces the error record with that exact message. -/
theorem process_url_total_shape_witness :
    process_url c1O = ResultRecord.error "goose crash" :=
  (process_url_total_shape c1O).2 "goose crash" rfl

/-- C2.  When extraction succeeds and the body equals the not_found
sentinel, the result is the fixed error record, for every combination of the
other extracted fields and every behaviour of the later stages (the
quantification over the oracle record makes the result independent of the
detection, translation, summarization and keyword stages, so none of them
can influence it). -/
theorem process_url_notfound (o : Oracles) (art : Article)
    (hx : o.extract = Except.ok art) (hc : art.content = "not_found") :
    process_url o = ResultRecord.error "Main content not found." :=
  process_notfound_aux o art hx hc

/-- Witness for C2: an oracle whose every post-extraction stage raises still
yields the fixed not-found error record. -/
theorem process_url_notfound_witness :
    process_url c2O = ResultRecord.error "Main content not found." :=
  process_url_notfound c2O c2Art rfl rfl

/-- C3.  When the detected language of the body is English, any success
record carries a translated_title equal to its title, and the result is
unchanged under any replacement of the title-fallback and sentence
translation oracles, which is to say neither translation stage is
invoked. -/
theorem process_url_english (o : Oracles) (art : Article)
    (hx : o.extract = Except.ok art)
    (hd : o.detect art.content = Except.ok "en") :
    (∀ t tt a d k x, process_url o = ResultRecord.ok t tt a d k x → tt = t) ∧
    (∀ t2 s2, process_url { o with ttitle := t2, tsent := s2 } =
      process_url o) := by
  constructor
  · intro t tt a d k x hr
    obtain ⟨h1, _, _, hcase⟩ := process_ok_inv o art hx t tt a d k x hr
    rcases hcase with ⟨_, htt⟩ | ⟨lang, hd2, hl2, _⟩
    · rw [htt, h1]
    · rw [hd] at hd2
      injection hd2 with he
      exact absurd he.symm hl2
  · intro t2 s2
    by_cases hc : art.content = "not_found"
    · rw [process_notfound_aux o art hx hc,
        process_notfound_aux { o with ttitle := t2, tsent := s2 } art hx hc]
    · rw [process_en_form o art hx hc hd,
        process_en_form { o with ttitle := t2, tsent := s2 } art hx hc hd]

/-- Witness for C3: the English-language oracle around c3Art, with the
translation oracles replaced by a crashing and a mangling one on the
invariance side. -/
theorem process_url_english_witness :
    ("Cats Explained" : String) = "Cats Explained" ∧
    process_url { c3O with
      ttitle := (fun t _ => t ++ "!")
      tsent := (fun _ => Except.error "marian crash") } = process_url c3O :=
  ⟨(process_url_english c3O c3Art rfl rfl).1 "Cats Explained" "Cats Explained"
      "A" "D" [("keyword_1", "cats")] "Cats are great. Fin." rfl,
   (process_url_english c3O c3Art rfl rfl).2 (fun t _ => t ++ "!")
      (fun _ => Except.error "marian crash")⟩

/-- C4 (amended).  When the detected language is non-English and the title
fallback returns an empty string or a string identical to the original
title, the success record's translated_title is the literal "Translation not
available." sentinel; it differs from the original title whenever the
original title is not itself that literal (when the original title is the
literal, the sentinel coincides with it, which is the single case the
original claim overlooked). -/
theorem process_url_title_fallback (o : Oracles) (art : Article) (lang : String)
    (hx : o.extract = Except.ok art)
    (hd : o.detect art.content = Except.ok lang) (hl : lang ≠ "en")
    (hfb : o.ttitle art.title lang = "" ∨ o.ttitle art.title lang = art.title)
    (t tt a d : String) (k : List (String × String)) (x : String)
    (hr : process_url o = ResultRecord.ok t tt a d k x) :
    tt = "Translation not available." ∧
    (art.title ≠ "Translation not available." → tt ≠ t) := by
  obtain ⟨h1, _, _, hcase⟩ := process_ok_inv o art hx t tt a d k x hr
  rcases hcase with ⟨hden, _⟩ | ⟨lang2, hd2, _, htt⟩
  · rw [hd] at hden
    injection hden with he
    exact absurd he hl
  · rw [hd] at hd2
    injection hd2 with he
    subst he
    have hcond : (o.ttitle art.title lang == "" ||
        o.ttitle art.title lang == art.title) = true := by
      rcases hfb with h | h <;> simp [h]
    rw [hcond] at htt
    simp only [if_true] at htt
    refine ⟨htt, ?_⟩
    intro hne
    rw [htt, h1]
    exact fun e => hne e.symm

/-- Witness for C4 (amended): the oracle around c4bArt, whose fallback
returns the unchanged title Titre. -/
theorem process_url_title_fallback_witness :
    ("Translation not available." : String) = "Translation not available." ∧
    (("Titre" : String) ≠ "Translation not available." →
      ("Translation not available." : String) ≠ "Titre") :=
  process_url_title_fallback c4bO c4bArt "fr" rfl rfl (by decide)
    (Or.inr rfl) "Titre" "Translation not available." "A" "D" [] "Text." rfl

/-- Counterexample to C4 as stated: with the article whose original title is
itself the literal "Translation not available.", detection fr, and a
fallback returning its input unchanged, the success record's
translated_title is the sentinel and equals the original title, so the
claim's phrase that it is never the original title fails at this input. -/
theorem process_url_title_fallback_cex :
    c4O.extract = Except.ok c4Art ∧
    c4O.detect c4Art.content = Except.ok "fr" ∧ ("fr" : String) ≠ "en" ∧
    c4O.ttitle c4Art.title "fr" = c4Art.title ∧
    process_url c4O = ResultRecord.ok c4Art.title "Translation not available."
      "A" "D" [] "Text." ∧
    c4Art.title = "Translation not available." :=
  ⟨rfl, rfl, by decide, rfl, rfl, rfl⟩

/-- C10.  The title field of any success record is the extractor's title
unchanged, whichever branch (English or translated) produced the record. -/
theorem process_url_title_unchanged (o : Oracles) (art : Article)
    (hx : o.extract = Except.ok art)
    (t tt a d : String) (k : List (String × String)) (x : String)
    (hr : process_url o = ResultRecord.ok t tt a d k x) :
    t = art.title :=
  (process_ok_inv o art hx t tt a d k x hr).1

/-- Witness for C10: the non-English oracle around c4bArt, whose success
record's title field is the extracted Titre even though title translation
ran. -/
theorem process_url_title_unchanged_witness :
    ("Titre" : String) = c4bArt.title :=
  process_url_title_unchanged c4bO c4bArt rfl "Titre"
    "Translation not available." "A" "D" [] "Text." rfl

/-- C8 (amended).  Invoked with anything other than exactly one positional
argument, main prints the usage-error object as single-line compact JSON with
the json module's default separators and ASCII escaping — not the
pretty-printed 4-space-indent unescaped form used for result records — and
processes no URL: the printed line is independent of every pipeline
oracle. -/
theorem main_usage_compact (argv : List String) (o : Oracles)
    (h : argv.length ≠ 2) :
    main_run argv o =
      "\x7b\"status\": \"error\", \"error\": \"Usage: python extract_v5.py <URL>\"\x7d" := by
  unfold main_run
  split
  · rfl
  · rename_i hfalse
    exact absurd (by simpa [bne_iff_ne] using h) hfalse

/-- Witness for C8 (amended): an empty argument vector takes the usage
path. -/
theorem main_usage_compact_witness :
    main_run [] c3O =
      "\x7b\"status\": \"error\", \"error\": \"Usage: python extract_v5.py <URL>\"\x7d" :=
  main_usage_compact [] c3O (by decide)

/-- Counterexample to C8 as stated: the usage-error line of main is produced
by json.dumps with default settings, so it is compact single-line JSON; it is
not the pretty-printed 4-space-indent non-ASCII-unescaped rendering the claim
describes, which differs (it contains newlines and indentation). -/
theorem main_usage_cex :
    (["Translate.py"] : List String).length ≠ 2 ∧
    main_run ["Translate.py"] c3O =
      "\x7b\"status\": \"error\", \"error\": \"Usage: python extract_v5.py <URL>\"\x7d" ∧
    main_run ["Translate.py"] c3O ≠ dumpsTop false (some 4) usageFields := by
  refine ⟨by decide, by decide, by decide⟩

/-- C9.  The Diagnostics Suppressor redirects both standard streams to
freshly opened discard sinks on entry, and on every exit of the protected
block — the normal outcome and the raising outcome alike, the last conjunct
instantiating the body with an unconditional raise — both streams are
restored to exactly the targets they had on entry. -/
theorem suppress_scope_restores {α : Type} (s : SysStreams) (fresh : Nat)
    (body : SysStreams → Except String α) (msg : String) :
    (SuppressOutput_enter s fresh).2.stdout = StreamTarget.devnull fresh ∧
    (SuppressOutput_enter s fresh).2.stderr = StreamTarget.devnull (fresh + 1) ∧
    (with_suppress s fresh body).2 = s ∧
    (with_suppress s fresh
      (fun _ => (Except.error msg : Except String α))).2 = s := by
  refine ⟨rfl, rfl, ?_, rfl⟩
  simp only [with_suppress]
  cases body (SuppressOutput_enter s fresh).2 <;> rfl
